import Mathlib

set_option maxHeartbeats 1000000

/-!
Shallow embedding of `code_analyzer.py`, a PEP8-style static code analyzer.

A file is modelled as the list of its physical lines exactly as Python's file
iteration yields them: each line is a list of characters and keeps its trailing
newline.  The regex-based checks of `analyze_file` (lines 70-118 of the source)
are embedded as executable boolean scanners whose semantics match the regexes
used by the source; the `ast.NodeVisitor` attribute collection (`PepAnalyzer`)
is embedded through per-line attribute records.  All character classes are the
ASCII ones, which is what every input exercised here uses.
-/

/-- A physical line of the analyzed file: its characters with the trailing
newline included, as produced by iterating the open file in Python. -/
abbrev Line := List Char

/-- Whitespace characters as matched by the Python regex class interpreted over
ASCII: space, tab, newline, carriage return, vertical tab, form feed. -/
def isPyWhite (c : Char) : Bool :=
  c == ' ' || c == '\t' || c == '\n' || c == '\r' || c == '\x0b' || c == '\x0c'

/-- Word characters as matched by the regex class `\w`, over the ASCII range
used by the analyzed sources: letters, digits and underscore. -/
def isWordChar (c : Char) : Bool :=
  c.isLower || c.isUpper || c.isDigit || c == '_'

/-- S001 trigger (source line 77): `len(line) > 79`. -/
def s001 (line : Line) : Bool :=
  decide (79 < line.length)

/-- S002 trigger (source line 80): `re.match(r"(?!^( {4})*[^ ])", line)`.
The negative lookahead fails exactly when the line starts with `4*n` spaces
followed directly by a non-space character, for some `n`. -/
def s002 (line : Line) : Bool :=
  ! ((List.range (line.length + 1)).any fun n =>
      decide (line.take (4 * n) = List.replicate (4 * n) ' ') &&
      (match getElem? line (4 * n) with
       | some c => !(c == ' ')
       | none => false))

/-- S003 trigger (source line 83): `re.search(r"^([^#])*;(?!\S)", line)`.
The pattern is anchored, so it matches exactly when some position `k` holds a
semicolon, no earlier position holds `#`, and position `k+1` is absent or a
whitespace character. -/
def s003 (line : Line) : Bool :=
  (List.range line.length).any fun k =>
    (line.take k).all (fun c => !(c == '#')) &&
    (getElem? line k == some ';') &&
    (match getElem? line (k + 1) with
     | some c => isPyWhite c
     | none => true)

/-- S004 trigger (source line 86): `re.match(r"[^#]*[^ ]( ?#)", line)`:
some position `j` with no `#` before it holds a non-space character that is
followed by `#`, or by a single space and then `#`. -/
def s004 (line : Line) : Bool :=
  (List.range line.length).any fun j =>
    (line.take j).all (fun c => !(c == '#')) &&
    (match getElem? line j with
     | some c => !(c == ' ')
     | none => false) &&
    ((getElem? line (j + 1) == some '#') ||
     ((getElem? line (j + 1) == some ' ') && (getElem? line (j + 2) == some '#')))

/-- The case-insensitive literal `todo` of the S005 regex, matched against the
beginning of a character list. -/
def matchesTodo (cs : List Char) : Bool :=
  match cs with
  | a :: b :: c :: d :: _ =>
      (a.toLower == 't') && (b.toLower == 'o') && (c.toLower == 'd') && (d.toLower == 'o')
  | _ => false

/-- S005 trigger (source line 89): `re.search(r"(?i)# *todo", line)`: some
`#` followed by zero or more spaces and then `todo`, case-insensitively. -/
def s005 (line : Line) : Bool :=
  (List.range line.length).any fun k =>
    (getElem? line k == some '#') &&
    ((List.range (line.length + 1)).any fun m =>
      ((line.drop (k + 1)).take m).all (fun c => c == ' ') &&
      matchesTodo (line.drop (k + 1 + m)))

/-- Test whether `p` is a prefix of `l` (used to embed anchored literal
matching of keywords). -/
def startsWith (p l : List Char) : Bool :=
  decide (l.take p.length = p)

/-- S007 trigger (source line 96): `re.match(r"^([ ]*(?:class|def) ( )+)", line)`:
after the leading spaces, the keyword must be followed by at least two spaces. -/
def s007 (line : Line) : Bool :=
  startsWith (String.toList "class  ") (line.dropWhile (fun c => c == ' ')) ||
  startsWith (String.toList "def  ") (line.dropWhile (fun c => c == ' '))

/-- Name extraction shared by S008 and S009 (source lines 99 and 103):
`re.match(r"^(?:[ ]*KW (?P<name>\w+))", line)` — leading spaces, the keyword,
one space, then a nonempty run of word characters, which is the name. -/
def declName? (kw : List Char) (line : Line) : Option (List Char) :=
  let t := line.dropWhile (fun c => c == ' ')
  if startsWith (kw ++ [' ']) t then
    let nm := (t.drop (kw.length + 1)).takeWhile isWordChar
    if nm = [] then none else some nm
  else none

/-- The CamelCase test of S008 (source line 100):
`re.match(r"(?:[A-Z][a-z0-9]+)+", name)`.  As an unanchored-at-the-end prefix
match it succeeds exactly when the name starts with an uppercase letter
followed by a lowercase letter or digit (one group iteration suffices). -/
def camelOk (nm : List Char) : Bool :=
  match nm with
  | a :: b :: _ => a.isUpper && (b.isLower || b.isDigit)
  | _ => false

/-- The snake_case test of S009/S010/S011 (source lines 104, 108, 113):
`re.match(r"[a-z_]+", name)`.  As a prefix match it succeeds exactly when the
name starts with a lowercase letter or an underscore. -/
def snakeOk (nm : List Char) : Bool :=
  match nm with
  | a :: _ => a.isLower || a == '_'
  | [] => false

/-- S008 payload (source lines 99-101): the class name when the declaration
regex matches and the CamelCase test fails. -/
def s008 (line : Line) : Option (List Char) :=
  match declName? (String.toList "class") line with
  | some nm => if camelOk nm then none else some nm
  | none => none

/-- S009 payload (source lines 103-105): the function name when the declaration
regex matches and the snake_case test fails. -/
def s009 (line : Line) : Option (List Char) :=
  match declName? (String.toList "def") line with
  | some nm => if snakeOk nm then none else some nm
  | none => none

/-- The S010/S011 loops (source lines 107-115): report the first name of the
list failing the snake_case test, then stop. -/
def firstNonSnake : List (List Char) → Option (List Char)
  | [] => none
  | nm :: rest => if snakeOk nm then firstNonSnake rest else some nm

/-- `PepAnalyzer.get_mutable_defaults` (source lines 35-39): zip the parameter
names with the constant-default flags and return the first name paired with a
`False` flag, or the empty string. -/
def get_mutable_defaults : List (List Char) → List Bool → List Char
  | p :: ps, f :: fs => if f then get_mutable_defaults ps fs else p
  | _, _ => []

/-- The per-line record of `PepAnalyzer.stats` (source lines 11-15): variable
names stored at this line, parameter names declared at this line, and the
constant-ness flags of the defaults declared at this line.  A line the visitor
never touched has three empty lists (`defaultdict(list)`). -/
structure LineInfo where
  parameters : List (List Char)
  vars : List (List Char)
  isConstantDefault : List Bool

/-- The attribute record of a line never touched by the visitor. -/
def emptyInfo : LineInfo := ⟨[], [], []⟩

/-- The twelve diagnostic codes. -/
inductive Code
  | S001 | S002 | S003 | S004 | S005 | S006
  | S007 | S008 | S009 | S010 | S011 | S012
deriving DecidableEq, Repr

/-- Position of a code in the fixed check order of `analyze_file`. -/
def codeIdx : Code → Nat
  | .S001 => 1 | .S002 => 2 | .S003 => 3 | .S004 => 4
  | .S005 => 5 | .S006 => 6 | .S007 => 7 | .S008 => 8
  | .S009 => 9 | .S010 => 10 | .S011 => 11 | .S012 => 12

/-- One emitted diagnostic: the 1-based line number, the rule code, and the
name interpolated into the message, when the message reports one (S008-S011). -/
structure Diagnostic where
  lineno : Nat
  code : Code
  arg : Option (List Char)
deriving DecidableEq, Repr

/-- The one-or-zero diagnostics of a conditional `print`. -/
def diagsIf (b : Bool) (d : Diagnostic) : List Diagnostic :=
  if b then [d] else []

/-- The one-or-zero diagnostics of a name-reporting check. -/
def diagsOpt (i : Nat) (c : Code) (o : Option (List Char)) : List Diagnostic :=
  match o with
  | some nm => [⟨i, c, some nm⟩]
  | none => []

/-- The body of the per-line loop of `analyze_file` (source lines 75-118) on a
non-blank line: the twelve checks in source order, `counter` being the value of
`preceding_blank_line_counter` when the line is reached. -/
def checkLine (info : LineInfo) (counter i : Nat) (line : Line) : List Diagnostic :=
  diagsIf (s001 line) ⟨i, .S001, none⟩ ++
  diagsIf (s002 line) ⟨i, .S002, none⟩ ++
  diagsIf (s003 line) ⟨i, .S003, none⟩ ++
  diagsIf (s004 line) ⟨i, .S004, none⟩ ++
  diagsIf (s005 line) ⟨i, .S005, none⟩ ++
  diagsIf (decide (2 < counter)) ⟨i, .S006, none⟩ ++
  diagsIf (s007 line) ⟨i, .S007, none⟩ ++
  diagsOpt i .S008 (s008 line) ++
  diagsOpt i .S009 (s009 line) ++
  diagsOpt i .S010 (firstNonSnake info.parameters) ++
  diagsOpt i .S011 (firstNonSnake info.vars) ++
  diagsIf (!(get_mutable_defaults info.parameters info.isConstantDefault == []))
    ⟨i, .S012, none⟩

/-- The line loop of `analyze_file` (source lines 70-118): a line equal to a
lone newline only increments the blank counter; any other line runs the twelve
checks and resets the counter to zero. -/
def analyzeLines (infoAt : Nat → LineInfo) : Nat → Nat → List Line → List Diagnostic
  | _, _, [] => []
  | c, i, line :: rest =>
    if line = ['\n'] then analyzeLines infoAt (c + 1) (i + 1) rest
    else checkLine (infoAt i) c i line ++ analyzeLines infoAt 0 (i + 1) rest

/-- `analyze_file` (source lines 60-118): the counter starts at zero and the
line numbering at one. -/
def analyze_file (infoAt : Nat → LineInfo) (lines : List Line) : List Diagnostic :=
  analyzeLines infoAt 0 1 lines

/-- Python expressions as far as `PepAnalyzer` distinguishes them: a default
value is either an `ast.Constant` literal or any other expression kind. -/
inductive PyExpr
  | constant
  | nameExpr (id : List Char)
  | listExpr (elems : List PyExpr)
  | dictExpr
  | callExpr (fn : List Char)

/-- `isinstance(a, ast.Constant)` (source line 26). -/
def isConstant : PyExpr → Bool
  | .constant => true
  | _ => false

/-- An `ast.FunctionDef` node as far as `visit_FunctionDef` reads it:
`node.args.args` gives the parameter names, `node.args.defaults` the default
value expressions of the trailing parameters. -/
structure FunctionDefNode where
  args : List (List Char)
  defaults : List PyExpr

/-- The per-line attribute record produced by `visit_FunctionDef` (source
lines 22-27) for the definition line of `node`, together with the variables
collected by `visit_Name` at the same line. -/
def infoOfFunctionDef (node : FunctionDefNode) (vars : List (List Char)) : LineInfo :=
  ⟨node.args, vars, node.defaults.map isConstant⟩

/-- A directory entry as `analyze_file` sees it: `bad` stands for a file whose
opening or `ast.parse` raises (unreadable, unparsable, or a subdirectory);
`good` carries the physical lines and the attribute map of a parsable file. -/
inductive FileData
  | bad
  | good (lines : List Line) (infoAt : Nat → LineInfo)

/-- The result of one `analyze_file` call: `none` when the call raises before
printing anything (the parse happens before the line loop), otherwise the
emitted diagnostics. -/
def analyzeFileResult : FileData → Option (List Diagnostic)
  | .bad => none
  | .good lines infoAt => some (analyze_file infoAt lines)

/-- The directory loop of `analyze_pathname` (source lines 53-57): files are
analyzed in order; an exception from `analyze_file` propagates, so the loop
stops there.  The result is the diagnostics printed before the run ended and
whether the run ended by an uncaught exception. -/
def analyzeDirGo : List FileData → List Diagnostic × Bool
  | [] => ([], false)
  | f :: rest =>
    match analyzeFileResult f with
    | none => ([], true)
    | some ds =>
      let r := analyzeDirGo rest
      (ds ++ r.1, r.2)

/-- The path argument of `analyze_pathname`, resolved: a single file or the
listing of a directory. -/
inductive PathModel
  | file (fd : FileData)
  | dir (entries : List FileData)

/-- `analyze_pathname` (source lines 49-57), returning the diagnostics printed
before the process ends and whether it ended by an uncaught exception. -/
def analyze_pathname : PathModel → List Diagnostic × Bool
  | .file fd =>
    match analyzeFileResult fd with
    | none => ([], true)
    | some ds => (ds, false)
  | .dir entries => analyzeDirGo entries

/-- The number of consecutive blank lines immediately preceding the 0-based
line index `j`, recomputed independently from the line list. -/
def blankRunBefore (lines : List Line) (j : Nat) : Nat :=
  (((lines.take j).reverse).takeWhile (fun l => decide (l = ['\n']))).length

/-- The blank-line counter carried into index `j` when the loop entered the
current line list with counter value `c`: the run of blanks before `j`,
extended by `c` when every line before `j` is blank. -/
def extRun (c : Nat) (lines : List Line) (j : Nat) : Nat :=
  if (lines.take j).all (fun l => decide (l = ['\n'])) then c + j
  else blankRunBefore lines j

/-- The ordering that claim C7 asserts on the emitted diagnostic sequence:
strictly ascending line numbers, and inside one line strictly ascending
positions in the fixed order S001 → S012. -/
def diagOrder (d1 d2 : Diagnostic) : Prop :=
  d1.lineno < d2.lineno ∨ (d1.lineno = d2.lineno ∧ codeIdx d1.code < codeIdx d2.code)

/-- The snake_case property as the spec words it for C1: the name consists of
lowercase letters and underscores only (and is nonempty). -/
def isSnakeCaseSpec (nm : List Char) : Bool :=
  !(nm == []) && nm.all (fun c => c.isLower || c == '_')

/-- The condition claim C2 asserts for S005: the token `todo` occurs,
case-insensitively, somewhere strictly after a `#` character of the line. -/
def todoAfterHashAnywhere (line : Line) : Bool :=
  (List.range line.length).any fun k =>
    (getElem? line k == some '#') &&
    ((List.range line.length).any fun j =>
      decide (k < j) && matchesTodo (line.drop j))

/-- A case-insensitive occurrence of `todo` at position `j` of the line,
written positionally (used to state the amended C2). -/
def TodoAt (line : Line) (j : Nat) : Prop :=
  ∃ a b c d, getElem? line j = some a ∧ getElem? line (j + 1) = some b ∧
    getElem? line (j + 2) = some c ∧ getElem? line (j + 3) = some d ∧
    a.toLower = 't' ∧ b.toLower = 'o' ∧ c.toLower = 'd' ∧ d.toLower = 'o'

/-! Helper lemmas about the one-or-zero diagnostic lists. -/

@[simp] lemma mem_diagsIf {x d : Diagnostic} {b : Bool} :
    x ∈ diagsIf b d ↔ (b = true ∧ x = d) := by
  cases b <;> simp [diagsIf]

@[simp] lemma mem_diagsOpt {x : Diagnostic} {i : Nat} {c : Code} {o : Option (List Char)} :
    x ∈ diagsOpt i c o ↔ ∃ nm, o = some nm ∧ x = ⟨i, c, some nm⟩ := by
  cases o <;> simp [diagsOpt]

lemma pairwise_diagsIf {R : Diagnostic → Diagnostic → Prop} {b : Bool} {d : Diagnostic} :
    (diagsIf b d).Pairwise R := by
  cases b <;> simp [diagsIf]

lemma pairwise_diagsOpt {R : Diagnostic → Diagnostic → Prop} {i : Nat} {c : Code}
    {o : Option (List Char)} : (diagsOpt i c o).Pairwise R := by
  cases o <;> simp [diagsOpt]

@[simp] lemma countP_diagsIf {p : Diagnostic → Bool} {b : Bool} {d : Diagnostic} :
    (diagsIf b d).countP p = if b then (if p d then 1 else 0) else 0 := by
  cases b <;> simp [diagsIf, List.countP_cons]

@[simp] lemma countP_diagsOpt {p : Diagnostic → Bool} {i : Nat} {c : Code}
    {o : Option (List Char)} :
    (diagsOpt i c o).countP p = o.elim 0 (fun nm => if p ⟨i, c, some nm⟩ then 1 else 0) := by
  cases o <;> simp [diagsOpt, List.countP_cons]

lemma checkLine_lineno {info : LineInfo} {c i : Nat} {line : Line} :
    ∀ d ∈ checkLine info c i line, d.lineno = i := by
  intro d hd
  simp only [checkLine, List.mem_append, mem_diagsIf, mem_diagsOpt] at hd
  rcases hd with (((((((((((⟨-, rfl⟩|⟨-, rfl⟩)|⟨-, rfl⟩)|⟨-, rfl⟩)|⟨-, rfl⟩)|⟨-, rfl⟩)|
    ⟨-, rfl⟩)|⟨nm, -, rfl⟩)|⟨nm, -, rfl⟩)|⟨nm, -, rfl⟩)|⟨nm, -, rfl⟩)|⟨-, rfl⟩) <;> rfl

/-! Membership of each code's diagnostic in the per-line check output. -/

lemma s006_mem_checkLine {info : LineInfo} {c i n : Nat} {line : Line} :
    (Diagnostic.mk n .S006 none ∈ checkLine info c i line) ↔ (n = i ∧ 2 < c) := by
  simp [checkLine, Diagnostic.mk.injEq]
  tauto

lemma s003_mem_checkLine {info : LineInfo} {c i n : Nat} {line : Line} :
    (Diagnostic.mk n .S003 none ∈ checkLine info c i line) ↔ (n = i ∧ s003 line = true) := by
  simp [checkLine, Diagnostic.mk.injEq]
  tauto

lemma s005_mem_checkLine {info : LineInfo} {c i n : Nat} {line : Line} :
    (Diagnostic.mk n .S005 none ∈ checkLine info c i line) ↔ (n = i ∧ s005 line = true) := by
  simp [checkLine, Diagnostic.mk.injEq]
  tauto

lemma s008_mem_checkLine {info : LineInfo} {c i n : Nat} {line : Line} {nm : List Char} :
    (Diagnostic.mk n .S008 (some nm) ∈ checkLine info c i line) ↔
      (n = i ∧ s008 line = some nm) := by
  simp [checkLine, Diagnostic.mk.injEq]
  tauto

lemma s009_mem_checkLine {info : LineInfo} {c i n : Nat} {line : Line} {nm : List Char} :
    (Diagnostic.mk n .S009 (some nm) ∈ checkLine info c i line) ↔
      (n = i ∧ s009 line = some nm) := by
  simp [checkLine, Diagnostic.mk.injEq]
  tauto

lemma s012_mem_checkLine {info : LineInfo} {c i n : Nat} {line : Line} :
    (Diagnostic.mk n .S012 none ∈ checkLine info c i line) ↔
      (n = i ∧ get_mutable_defaults info.parameters info.isConstantDefault ≠ []) := by
  simp [checkLine, Diagnostic.mk.injEq]
  tauto

lemma countP_s001_checkLine {info : LineInfo} {c i : Nat} {line : Line} :
    (checkLine info c i line).countP (fun d => d.code == Code.S001)
      = if s001 line then 1 else 0 := by
  rcases h8 : s008 line with _ | nm8 <;> rcases h9 : s009 line with _ | nm9 <;>
    rcases h10 : firstNonSnake info.parameters with _ | nm10 <;>
    rcases h11 : firstNonSnake info.vars with _ | nm11 <;>
      simp [checkLine, h8, h9, h10, h11]

/-! Ordering of the per-line output and of the whole file's output. -/

lemma pairwise_checkLine {info : LineInfo} {c i : Nat} {line : Line} :
    (checkLine info c i line).Pairwise diagOrder := by
  simp only [checkLine, List.pairwise_append, List.mem_append, mem_diagsIf, mem_diagsOpt,
    pairwise_diagsIf, pairwise_diagsOpt, true_and, and_true]
  repeat' apply And.intro
  all_goals (intros; casesm* Exists _, _ ∧ _, _ ∨ _)
  all_goals (subst_vars; simp [diagOrder, codeIdx])

lemma analyzeLines_lineno_ge {infoAt : Nat → LineInfo} :
    ∀ (lines : List Line) (c i : Nat), ∀ d ∈ analyzeLines infoAt c i lines, i ≤ d.lineno := by
  intro lines
  induction lines with
  | nil => intro c i d hd; simp [analyzeLines] at hd
  | cons l rest ih =>
    intro c i d hd
    simp only [analyzeLines] at hd
    split at hd
    · have := ih (c + 1) (i + 1) d hd
      omega
    · rcases List.mem_append.mp hd with h | h
      · exact le_of_eq (checkLine_lineno d h).symm
      · have := ih 0 (i + 1) d h
        omega

lemma pairwise_analyzeLines {infoAt : Nat → LineInfo} :
    ∀ (lines : List Line) (c i : Nat), (analyzeLines infoAt c i lines).Pairwise diagOrder := by
  intro lines
  induction lines with
  | nil => intro c i; simp [analyzeLines]
  | cons l rest ih =>
    intro c i
    simp only [analyzeLines]
    split
    · exact ih (c + 1) (i + 1)
    · refine List.pairwise_append.mpr ⟨pairwise_checkLine, ih 0 (i + 1), ?_⟩
      intro a ha b hb
      have h1 : a.lineno = i := checkLine_lineno a ha
      have h2 : i + 1 ≤ b.lineno := analyzeLines_lineno_ge rest 0 (i + 1) b hb
      exact Or.inl (by omega)

/-! The blank-run counter: relating the loop state to `blankRunBefore`. -/

lemma takeWhile_append_not_all {α : Type} {p : α → Bool} {xs ys : List α}
    (h : ¬ ∀ x ∈ xs, p x = true) :
    (xs ++ ys).takeWhile p = xs.takeWhile p := by
  induction xs with
  | nil => exact absurd (by simp) h
  | cons a xs ih =>
    by_cases hpa : p a = true
    · have h' : ¬ ∀ x ∈ xs, p x = true := by
        intro hall
        refine h ?_
        intro x hx
        rcases List.mem_cons.mp hx with rfl | hx'
        · exact hpa
        · exact hall x hx'
      simp [List.takeWhile_cons, hpa, ih h']
    · simp [List.takeWhile_cons, hpa]

lemma not_all_reverse {α : Type} {p : α → Bool} {l : List α} (h : ¬ (l.all p = true)) :
    ¬ ∀ x ∈ l.reverse, p x = true := by
  simp only [List.all_eq_true] at h
  intro hc
  exact h (fun x hx => hc x (List.mem_reverse.mpr hx))

lemma extRun_zero {c : Nat} {lines : List Line} : extRun c lines 0 = c := by
  simp [extRun]

lemma extRun_cons_blank {c j : Nat} {rest : List Line} :
    extRun c (['\n'] :: rest) (j + 1) = extRun (c + 1) rest j := by
  by_cases hall : (rest.take j).all (fun l => decide (l = ['\n'])) = true
  · have h1 : ((['\n'] :: rest).take (j + 1)).all (fun l => decide (l = ['\n'])) = true := by
      simp [List.take_succ_cons, hall]
    simp only [extRun, if_pos h1, if_pos hall]
    omega
  · have h1 : ¬ ((['\n'] :: rest).take (j + 1)).all (fun l => decide (l = ['\n'])) = true := by
      simp [List.take_succ_cons, List.all_cons, hall]
    simp only [extRun, if_neg h1, if_neg hall]
    unfold blankRunBefore
    rw [List.take_succ_cons, List.reverse_cons,
      takeWhile_append_not_all (not_all_reverse hall)]

lemma extRun_cons_nonblank {c j : Nat} {l : Line} {rest : List Line}
    (hl : l ≠ ['\n']) (hj : j ≤ rest.length) :
    extRun c (l :: rest) (j + 1) = extRun 0 rest j := by
  have h1 : ¬ ((l :: rest).take (j + 1)).all (fun x => decide (x = ['\n'])) = true := by
    simp [List.take_succ_cons, List.all_cons, hl]
  by_cases hall : (rest.take j).all (fun x => decide (x = ['\n'])) = true
  · simp only [extRun, if_neg h1, if_pos hall]
    unfold blankRunBefore
    rw [List.take_succ_cons, List.reverse_cons, List.takeWhile_append_of_pos ?pos]
    case pos =>
      intro a ha
      exact List.all_eq_true.mp hall a (List.mem_reverse.mp ha)
    have h2 : List.takeWhile (fun x => decide (x = ['\n'])) [l] = [] := by
      simp [List.takeWhile_cons, hl]
    rw [h2]
    simp [List.length_take]
    omega
  · simp only [extRun, if_neg h1, if_neg hall]
    unfold blankRunBefore
    rw [List.take_succ_cons, List.reverse_cons, takeWhile_append_not_all (not_all_reverse hall)]

lemma extRun_zero_eq {lines : List Line} {j : Nat} (hj : j ≤ lines.length) :
    extRun 0 lines j = blankRunBefore lines j := by
  by_cases hall : (lines.take j).all (fun x => decide (x = ['\n'])) = true
  · simp only [extRun, if_pos hall]
    unfold blankRunBefore
    rw [List.takeWhile_eq_self_iff.mpr ?pos]
    case pos =>
      intro x hx
      exact List.all_eq_true.mp hall x (List.mem_reverse.mp hx)
    simp [List.length_take]
    omega
  · simp only [extRun, if_neg hall]

/-! Projecting the file-level output onto a single line index. -/

lemma filter_analyzeLines (infoAt : Nat → LineInfo) :
    ∀ (lines : List Line) (c i j : Nat) (h : j < lines.length),
    (analyzeLines infoAt c i lines).filter (fun d => d.lineno == i + j)
    = if lines.get ⟨j, h⟩ = ['\n'] then []
      else checkLine (infoAt (i + j)) (extRun c lines j) (i + j) (lines.get ⟨j, h⟩) := by
  intro lines
  induction lines with
  | nil =>
    intro c i j h
    exact absurd h (Nat.not_lt_zero j)
  | cons l rest ih =>
    intro c i j h
    cases j with
    | zero =>
      have hget : (l :: rest).get ⟨0, h⟩ = l := rfl
      rw [hget]
      by_cases hl : l = ['\n']
      · rw [if_pos hl]
        rw [show analyzeLines infoAt c i (l :: rest) = analyzeLines infoAt (c + 1) (i + 1) rest
            from by simp only [analyzeLines, if_pos hl]]
        refine List.filter_eq_nil_iff.mpr ?_
        intro d hd
        have hge := analyzeLines_lineno_ge rest (c + 1) (i + 1) d hd
        simp only [Nat.add_zero, beq_iff_eq]
        omega
      · rw [if_neg hl]
        rw [show analyzeLines infoAt c i (l :: rest)
            = checkLine (infoAt i) c i l ++ analyzeLines infoAt 0 (i + 1) rest
            from by simp only [analyzeLines, if_neg hl]]
        rw [List.filter_append]
        have h1 : (checkLine (infoAt i) c i l).filter (fun d => d.lineno == i + 0)
            = checkLine (infoAt i) c i l := by
          refine List.filter_eq_self.mpr ?_
          intro d hd
          have hln := checkLine_lineno d hd
          simp only [beq_iff_eq, Nat.add_zero]
          omega
        have h2 : (analyzeLines infoAt 0 (i + 1) rest).filter (fun d => d.lineno == i + 0)
            = [] := by
          refine List.filter_eq_nil_iff.mpr ?_
          intro d hd
          have hge := analyzeLines_lineno_ge rest 0 (i + 1) d hd
          simp only [beq_iff_eq, Nat.add_zero]
          omega
        rw [h1, h2, List.append_nil, extRun_zero, Nat.add_zero]
    | succ j' =>
      have hj' : j' < rest.length := by simpa using h
      have hget : (l :: rest).get ⟨j' + 1, h⟩ = rest.get ⟨j', hj'⟩ := rfl
      rw [hget]
      by_cases hl : l = ['\n']
      · subst hl
        rw [show analyzeLines infoAt c i (['\n'] :: rest)
            = analyzeLines infoAt (c + 1) (i + 1) rest from by simp [analyzeLines]]
        have harith : i + (j' + 1) = (i + 1) + j' := by omega
        rw [harith, ih (c + 1) (i + 1) j' hj', extRun_cons_blank]
      · rw [show analyzeLines infoAt c i (l :: rest)
            = checkLine (infoAt i) c i l ++ analyzeLines infoAt 0 (i + 1) rest
            from by simp only [analyzeLines, if_neg hl]]
        rw [List.filter_append]
        have h1 : (checkLine (infoAt i) c i l).filter (fun d => d.lineno == i + (j' + 1))
            = [] := by
          refine List.filter_eq_nil_iff.mpr ?_
          intro d hd
          have hln := checkLine_lineno d hd
          simp only [beq_iff_eq]
          omega
        have harith : i + (j' + 1) = (i + 1) + j' := by omega
        rw [h1, List.nil_append, harith, ih 0 (i + 1) j' hj',
          extRun_cons_nonblank hl (Nat.le_of_lt hj')]

lemma analyzeLines_blank_lineno {infoAt : Nat → LineInfo} (lines : List Line) (c i j : Nat)
    (h : j < lines.length) (hb : lines.get ⟨j, h⟩ = ['\n']) :
    ∀ d ∈ analyzeLines infoAt c i lines, d.lineno ≠ i + j := by
  intro d hd heq
  have hmem : d ∈ (analyzeLines infoAt c i lines).filter (fun x => x.lineno == i + j) :=
    List.mem_filter.mpr ⟨hd, by simp [heq]⟩
  rw [filter_analyzeLines infoAt lines c i j h, if_pos hb] at hmem
  exact absurd hmem (List.not_mem_nil d)

/-! Claim theorems. -/

/-- C6: for every file, the blank-run counter starts at zero and, at the moment
a non-blank line is checked, equals the number of consecutive blank lines
immediately preceding it (recomputed independently as `blankRunBefore`); S006
is emitted for that line exactly when this count exceeds two, the counter is
reset after the non-blank line, and a blank line never receives a diagnostic
of any code. -/
theorem c6_blank_run_s006 :
    (∀ (infoAt : Nat → LineInfo) (lines : List Line) (j : Nat) (h : j < lines.length),
      lines.get ⟨j, h⟩ ≠ ['\n'] →
      ((Diagnostic.mk (j + 1) Code.S006 none ∈ analyze_file infoAt lines) ↔
        2 < blankRunBefore lines j))
    ∧ (∀ (infoAt : Nat → LineInfo) (lines : List Line) (j : Nat) (h : j < lines.length),
      lines.get ⟨j, h⟩ = ['\n'] →
      ∀ d ∈ analyze_file infoAt lines, d.lineno ≠ j + 1) := by
  constructor
  · intro infoAt lines j h hnb
    have hfilter := filter_analyzeLines infoAt lines 0 1 j h
    rw [if_neg hnb] at hfilter
    have hmem : (Diagnostic.mk (j + 1) Code.S006 none ∈ analyze_file infoAt lines) ↔
        (Diagnostic.mk (j + 1) Code.S006 none ∈
          (analyzeLines infoAt 0 1 lines).filter (fun d => d.lineno == 1 + j)) := by
      simp only [analyze_file]
      constructor
      · intro hm
        exact List.mem_filter.mpr ⟨hm, by simp [Nat.add_comm]⟩
      · intro hm
        exact (List.mem_filter.mp hm).1
    rw [hmem, hfilter, s006_mem_checkLine, extRun_zero_eq (Nat.le_of_lt h)]
    constructor
    · rintro ⟨-, h2⟩
      exact h2
    · intro h2
      exact ⟨by omega, h2⟩
  · intro infoAt lines j h hb d hd heq
    simp only [analyze_file] at hd
    have := analyzeLines_blank_lineno lines 0 1 j h hb d hd
    omega

/-- C6 witness: in a five-line file whose second to fourth lines are blank,
line 5 is preceded by three blank lines and indeed receives S006. -/
theorem c6_blank_run_s006_witness :
    Diagnostic.mk 5 Code.S006 none ∈ analyze_file (fun _ => emptyInfo)
      [String.toList "x = 1\n", ['\n'], ['\n'], ['\n'], String.toList "y = 2\n"] :=
  (c6_blank_run_s006.1 (fun _ => emptyInfo)
      [String.toList "x = 1\n", ['\n'], ['\n'], ['\n'], String.toList "y = 2\n"] 4
      (by decide) (by decide)).mpr (by decide)

/-- C7: the diagnostic sequence of a file is strictly ordered: ascending line
numbers, and inside one line strictly ascending positions in the fixed code
order S001 → S012 — hence no code fires twice for one line. -/
theorem c7_diag_order (infoAt : Nat → LineInfo) (lines : List Line) :
    (analyze_file infoAt lines).Pairwise diagOrder :=
  pairwise_analyzeLines lines 0 1

/-- C8: for a non-blank physical line (trailing newline counted in its length),
S001 is emitted exactly once when the length exceeds 79 and never otherwise. -/
theorem c8_s001_length (infoAt : Nat → LineInfo) (lines : List Line) (j : Nat)
    (h : j < lines.length) (hnb : lines.get ⟨j, h⟩ ≠ ['\n']) :
    (analyze_file infoAt lines).countP
        (fun d => d.lineno == j + 1 && d.code == Code.S001)
      = if 79 < (lines.get ⟨j, h⟩).length then 1 else 0 := by
  have hfilter := filter_analyzeLines infoAt lines 0 1 j h
  rw [if_neg hnb] at hfilter
  have hstep := List.countP_filter (p := fun d : Diagnostic => d.code == Code.S001)
    (q := fun d : Diagnostic => d.lineno == 1 + j) (analyzeLines infoAt 0 1 lines)
  rw [hfilter, countP_s001_checkLine] at hstep
  have hcongr : (analyze_file infoAt lines).countP
        (fun d => d.lineno == j + 1 && d.code == Code.S001)
      = (analyzeLines infoAt 0 1 lines).countP
        (fun a => a.code == Code.S001 && a.lineno == 1 + j) := by
    simp only [analyze_file]
    refine List.countP_congr ?_
    intro x hx
    simp only [Bool.and_eq_true, beq_iff_eq]
    constructor
    · rintro ⟨h1, h2⟩
      exact ⟨h2, by omega⟩
    · rintro ⟨h1, h2⟩
      exact ⟨by omega, h1⟩
  rw [hcongr, ← hstep]
  simp [s001]

/-- C8 witness: a single 81-character line (80 letters and the newline) gets
exactly one S001. -/
theorem c8_s001_length_witness :
    (analyze_file (fun _ => emptyInfo) [List.replicate 80 'a' ++ ['\n']]).countP
        (fun d => d.lineno == 0 + 1 && d.code == Code.S001) = 1 :=
  (c8_s001_length (fun _ => emptyInfo) [List.replicate 80 'a' ++ ['\n']] 0
      (by decide) (by decide)).trans (by decide)

/-- C10: a line is blank only when it is exactly the lone newline; any other
line — a whitespace-only line included — takes the non-blank path: it resets
the counter to zero and runs through the twelve checks, and such a line can
itself receive diagnostics: the three-space line `"   \n"` receives S002. -/
theorem c10_blank_classification :
    (∀ (infoAt : Nat → LineInfo) (c i : Nat) (rest : List Line) (line : Line),
      line ≠ ['\n'] →
      analyzeLines infoAt c i (line :: rest)
        = checkLine (infoAt i) c i line ++ analyzeLines infoAt 0 (i + 1) rest)
    ∧ (Diagnostic.mk 1 Code.S002 none ∈
        analyze_file (fun _ => emptyInfo) [[' ', ' ', ' ', '\n']]) := by
  constructor
  · intro infoAt c i rest line hl
    simp only [analyzeLines, if_neg hl]
  · decide

/-- C10 witness: the three-space line is not the lone newline, so even with a
pending blank-run counter of 7 it goes through the full check path with the
counter reset to zero afterwards. -/
theorem c10_blank_classification_witness :
    analyzeLines (fun _ => emptyInfo) 7 1 [[' ', ' ', ' ', '\n']]
      = checkLine emptyInfo 7 1 [' ', ' ', ' ', '\n']
        ++ analyzeLines (fun _ => emptyInfo) 0 2 [] :=
  c10_blank_classification.1 (fun _ => emptyInfo) 7 1 [] [' ', ' ', ' ', '\n'] (by decide)

lemma gmd_ne_nil_iff :
    ∀ (params : List (List Char)) (flags : List Bool),
    flags.length ≤ params.length → (∀ p ∈ params, p ≠ []) →
    ((get_mutable_defaults params flags ≠ []) ↔ ∃ f ∈ flags, f = false) := by
  intro params
  induction params with
  | nil =>
    intro flags hlen hne
    cases flags with
    | nil => simp [get_mutable_defaults]
    | cons f fs => simp at hlen
  | cons p ps ih =>
    intro flags hlen hne
    cases flags with
    | nil => simp [get_mutable_defaults]
    | cons f fs =>
      cases f
      · have hp : p ≠ [] := hne p (List.mem_cons_self p ps)
        simp [get_mutable_defaults, hp]
      · have hlen' : fs.length ≤ ps.length := by simpa using hlen
        have hne' : ∀ q ∈ ps, q ≠ [] := fun q hq => hne q (List.mem_cons_of_mem p hq)
        simp [get_mutable_defaults, ih fs hlen' hne']

/-- C4: on a function definition line, S012 fires exactly when at least one of
the function's default-value expressions is not a literal constant.  The
hypotheses record what Python guarantees for the node: the default list covers
only the trailing parameters (so it is no longer than the parameter list) and
parameter names are nonempty. -/
theorem c4_s012_nonconstant_default (node : FunctionDefNode) (vars : List (List Char))
    (c i : Nat) (line : Line)
    (hlen : node.defaults.length ≤ node.args.length)
    (hne : ∀ a ∈ node.args, a ≠ []) :
    (Diagnostic.mk i Code.S012 none ∈ checkLine (infoOfFunctionDef node vars) c i line) ↔
      ∃ d ∈ node.defaults, isConstant d = false := by
  rw [s012_mem_checkLine]
  have hlen2 : (node.defaults.map isConstant).length ≤ node.args.length := by
    simpa using hlen
  rw [show (infoOfFunctionDef node vars).parameters = node.args from rfl,
    show (infoOfFunctionDef node vars).isConstantDefault = node.defaults.map isConstant from rfl,
    gmd_ne_nil_iff node.args (node.defaults.map isConstant) hlen2 hne]
  simp only [List.mem_map, true_and]
  constructor
  · rintro ⟨f, ⟨d, hd, rfl⟩, hf⟩
    exact ⟨d, hd, hf⟩
  · rintro ⟨d, hd, hf⟩
    exact ⟨isConstant d, ⟨d, hd, rfl⟩, hf⟩

/-- C4 witness: the node of `def f(a, b=[]):` has the single non-constant
default `[]`, and S012 fires on its definition line. -/
theorem c4_s012_witness :
    Diagnostic.mk 1 Code.S012 none ∈
      checkLine (infoOfFunctionDef
          ⟨[String.toList "a", String.toList "b"], [PyExpr.listExpr []]⟩ [])
        0 1 (String.toList "def f(a, b=[]):\n") :=
  (c4_s012_nonconstant_default
      ⟨[String.toList "a", String.toList "b"], [PyExpr.listExpr []]⟩ []
      0 1 (String.toList "def f(a, b=[]):\n") (by decide) (by decide)).mpr
    ⟨PyExpr.listExpr [], by simp, rfl⟩

/-- C1 counterexample: for `def myFunc(a, b):` the extracted name is `myFunc`,
which is not snake_case in the claim's sense (it contains an uppercase
letter), yet the code emits no S009: the source's `re.match(r"[a-z_]+", name)`
is a prefix match and accepts the leading `my`. -/
theorem c1_counterexample :
    declName? (String.toList "def") (String.toList "def myFunc(a, b):\n")
        = some (String.toList "myFunc")
    ∧ isSnakeCaseSpec (String.toList "myFunc") = false
    ∧ (checkLine emptyInfo 0 1 (String.toList "def myFunc(a, b):\n")).countP
        (fun d => d.code == Code.S009) = 0 := by
  decide

/-- C1 amended: S009 fires, reporting the extracted function name, exactly
when the name's first character is neither a lowercase letter nor an
underscore — the snake_case regex is applied as a prefix match, so a name
that merely starts lowercase (such as `myFunc`) passes. -/
theorem c1_amended_s009 (info : LineInfo) (c i : Nat) (line : Line) (nm : List Char)
    (hdecl : declName? (String.toList "def") line = some nm) :
    (Diagnostic.mk i Code.S009 (some nm) ∈ checkLine info c i line) ↔
      snakeOk nm = false := by
  rw [s009_mem_checkLine]
  simp only [eq_self_iff_true, true_and]
  simp only [s009, hdecl]
  cases hsnake : snakeOk nm <;> simp [hsnake]

/-- C1 amended witness: `def MyFunc(a, b):` starts with an uppercase letter,
so S009 does fire there, reporting `MyFunc`. -/
theorem c1_amended_s009_witness :
    Diagnostic.mk 1 Code.S009 (some (String.toList "MyFunc")) ∈
      checkLine emptyInfo 0 1 (String.toList "def MyFunc(a, b):\n") :=
  (c1_amended_s009 emptyInfo 0 1 (String.toList "def MyFunc(a, b):\n")
      (String.toList "MyFunc") (by decide)).mpr (by decide)

/-- C5 counterexample: for `class Foo_bar:` the extracted name is `Foo_bar`,
which contains an underscore and so is not CamelCase in the claim's sense,
yet the code emits no S008: `re.match(r"(?:[A-Z][a-z0-9]+)+", name)` is a
prefix match and accepts the leading `Foo`. -/
theorem c5_counterexample :
    declName? (String.toList "class") (String.toList "class Foo_bar:\n")
        = some (String.toList "Foo_bar")
    ∧ ('_' ∈ String.toList "Foo_bar")
    ∧ (checkLine emptyInfo 0 1 (String.toList "class Foo_bar:\n")).countP
        (fun d => d.code == Code.S008) = 0 := by
  decide

/-- C5 amended: S008 fires, reporting the extracted class name, exactly when
the name does not begin with an uppercase letter followed by a lowercase
letter or digit — the CamelCase regex is applied as a prefix match.  In
particular `class fooBar:` is reported and `class FooBar:` is not, as the
spec's examples state, but a name such as `Foo_bar` is accepted. -/
theorem c5_amended_s008 (info : LineInfo) (c i : Nat) (line : Line) (nm : List Char)
    (hdecl : declName? (String.toList "class") line = some nm) :
    (Diagnostic.mk i Code.S008 (some nm) ∈ checkLine info c i line) ↔
      camelOk nm = false := by
  rw [s008_mem_checkLine]
  simp only [eq_self_iff_true, true_and]
  simp only [s008, hdecl]
  cases hcamel : camelOk nm <;> simp [hcamel]

/-- C5 amended witness: `class fooBar:` starts with a lowercase letter, so
S008 fires there, reporting `fooBar`. -/
theorem c5_amended_s008_witness :
    Diagnostic.mk 1 Code.S008 (some (String.toList "fooBar")) ∈
      checkLine emptyInfo 0 1 (String.toList "class fooBar:\n") :=
  (c5_amended_s008 emptyInfo 0 1 (String.toList "class fooBar:\n")
      (String.toList "fooBar") (by decide)).mpr (by decide)

/-- C3 counterexample: a directory listing a failing entry before a good one.
Analyzed alone, the good file `x = 5;` yields one S003 diagnostic; but the
directory run hits the failing entry first, the exception propagates out of
the loop in `analyze_pathname`, and the good sibling is never analyzed — its
diagnostic is not emitted. -/
theorem c3_counterexample :
    analyzeFileResult (FileData.good [String.toList "x = 5;\n"] (fun _ => emptyInfo))
        = some [Diagnostic.mk 1 Code.S003 none]
    ∧ (analyze_pathname (PathModel.dir
        [FileData.bad, FileData.good [String.toList "x = 5;\n"] (fun _ => emptyInfo)])).1 = []
    ∧ (analyze_pathname (PathModel.dir
        [FileData.bad, FileData.good [String.toList "x = 5;\n"] (fun _ => emptyInfo)])).2
        = true := by
  decide

/-- C3 amended: in directory mode the files are processed in order and a file
whose opening or parsing fails raises an uncaught exception that ends the
whole run: the diagnostics of the files before it are emitted, and no file
after it is analyzed. -/
theorem c3_amended_abort (pre : List FileData) (f : FileData) (post : List FileData)
    (hpre : ∀ g ∈ pre, (analyzeFileResult g).isSome) (hf : analyzeFileResult f = none) :
    analyze_pathname (PathModel.dir (pre ++ f :: post))
      = ((pre.map (fun g => (analyzeFileResult g).getD [])).flatten, true) := by
  induction pre with
  | nil =>
    simp only [List.nil_append, List.map_nil, List.flatten_nil]
    simp [analyze_pathname, analyzeDirGo, hf]
  | cons g rest ih =>
    have hg := hpre g (List.mem_cons_self g rest)
    obtain ⟨ds, hds⟩ := Option.isSome_iff_exists.mp hg
    have hrest : ∀ x ∈ rest, (analyzeFileResult x).isSome :=
      fun x hx => hpre x (List.mem_cons_of_mem g hx)
    have ihr := ih hrest
    have key : analyzeDirGo (g :: (rest ++ f :: post))
        = (ds ++ (analyzeDirGo (rest ++ f :: post)).1,
            (analyzeDirGo (rest ++ f :: post)).2) := by
      simp only [analyzeDirGo, hds]
    show analyzeDirGo ((g :: rest) ++ f :: post) = _
    rw [List.cons_append, key,
      show analyzeDirGo (rest ++ f :: post)
        = analyze_pathname (PathModel.dir (rest ++ f :: post)) from rfl, ihr]
    simp [hds]

/-- C3 amended witness: with one good file before and one after the failing
entry, only the first file's S003 diagnostic is emitted and the run ends by
an exception. -/
theorem c3_amended_abort_witness :
    analyze_pathname (PathModel.dir
        ([FileData.good [String.toList "x = 5;\n"] (fun _ => emptyInfo)]
          ++ FileData.bad ::
            [FileData.good [String.toList "y = 7;\n"] (fun _ => emptyInfo)]))
      = ([Diagnostic.mk 1 Code.S003 none], true) :=
  (c3_amended_abort [FileData.good [String.toList "x = 5;\n"] (fun _ => emptyInfo)]
      FileData.bad [FileData.good [String.toList "y = 7;\n"] (fun _ => emptyInfo)]
      (by decide) (by decide)).trans (by decide)

/-! Bridging the S003 and S005 scanners with positional characterizations. -/

lemma getElem?_some_lt {α : Type} {l : List α} {n : Nat} {a : α}
    (h : getElem? l n = some a) : n < l.length := by
  rcases List.getElem?_eq_some_iff.mp h with ⟨hlt, -⟩
  exact hlt

lemma matchesTodo_iff_getElem (cs : List Char) :
    matchesTodo cs = true ↔
      ∃ a b c d, getElem? cs 0 = some a ∧ getElem? cs 1 = some b ∧
        getElem? cs 2 = some c ∧ getElem? cs 3 = some d ∧
        a.toLower = 't' ∧ b.toLower = 'o' ∧ c.toLower = 'd' ∧ d.toLower = 'o' := by
  match cs with
  | [] => simp [matchesTodo]
  | [_] => simp [matchesTodo]
  | [_, _] => simp [matchesTodo]
  | [_, _, _] => simp [matchesTodo]
  | a :: b :: c :: d :: rest => simp [matchesTodo, and_assoc]

lemma todoAt_iff (line : Line) (j : Nat) :
    TodoAt line j ↔ matchesTodo (line.drop j) = true := by
  rw [matchesTodo_iff_getElem]
  simp [TodoAt, List.getElem?_drop]

lemma all_take_spaces {l : List Char} {m t : Nat}
    (hsp : (l.take m).all (fun c => c == ' ') = true)
    (ht : t < m) (hlen : t < l.length) : getElem? l t = some ' ' := by
  rcases hx : getElem? l t with _ | x
  · rw [List.getElem?_eq_none_iff] at hx
    omega
  · have h1 : getElem? (l.take m) t = some x := by
      rw [List.getElem?_take_of_lt ht]
      exact hx
    have hxin : x ∈ l.take m := List.getElem?_mem h1
    have hsp' := List.all_eq_true.mp hsp x hxin
    simp only [beq_iff_eq] at hsp'
    rw [hsp']

lemma s005_iff (line : Line) :
    s005 line = true ↔
      ∃ k m, getElem? line k = some '#' ∧
        (∀ t, t < m → getElem? line (k + 1 + t) = some ' ') ∧
        TodoAt line (k + 1 + m) := by
  simp only [s005, List.any_eq_true, List.mem_range, Bool.and_eq_true, beq_iff_eq]
  constructor
  · rintro ⟨k, hk, hhash, m, hm, hsp, htd⟩
    refine ⟨k, m, hhash, ?_, (todoAt_iff line (k + 1 + m)).mpr htd⟩
    intro t ht
    have hbound : k + 1 + m < line.length := by
      rw [matchesTodo_iff_getElem] at htd
      obtain ⟨a, -, -, -, h0, -⟩ := htd
      have hl0 := getElem?_some_lt h0
      simp only [List.length_drop] at hl0
      omega
    have hdlen : t < (line.drop (k + 1)).length := by
      simp only [List.length_drop]
      omega
    have := all_take_spaces hsp ht hdlen
    rw [List.getElem?_drop] at this
    exact this
  · rintro ⟨k, m, hhash, hsp, htd⟩
    have htd' := (todoAt_iff line (k + 1 + m)).mp htd
    have hbound : k + 1 + m < line.length := by
      obtain ⟨a, -, -, -, h0, -⟩ := htd
      exact getElem?_some_lt h0
    refine ⟨k, getElem?_some_lt hhash, hhash, m, by omega, ?_, htd'⟩
    rw [List.all_eq_true]
    intro x hx
    obtain ⟨t, hxt⟩ := List.mem_iff_getElem?.mp hx
    have htb : t < m := by
      have hl := getElem?_some_lt hxt
      simp only [List.length_take] at hl
      omega
    rw [List.getElem?_take_of_lt htb, List.getElem?_drop] at hxt
    have hs := hsp t htb
    have hxeq := hs.symm.trans hxt
    cases Option.some.inj hxeq
    simp

lemma s003_iff (line : Line) :
    s003 line = true ↔
      ∃ k, getElem? line k = some ';' ∧
        (∀ t, t < k → getElem? line t ≠ some '#') ∧
        (∀ ch, getElem? line (k + 1) = some ch → isPyWhite ch = true) := by
  simp only [s003, List.any_eq_true, List.mem_range, Bool.and_eq_true, beq_iff_eq]
  constructor
  · rintro ⟨k, hk, ⟨htake, hsemi⟩, hmatch⟩
    refine ⟨k, hsemi, ?_, ?_⟩
    · intro t ht hhash
      have h1 : getElem? (line.take k) t = some '#' := by
        rw [List.getElem?_take_of_lt ht]
        exact hhash
      have h2 : '#' ∈ line.take k := List.getElem?_mem h1
      have h3 := List.all_eq_true.mp htake _ h2
      simp at h3
    · intro ch hch
      rw [hch] at hmatch
      simpa using hmatch
  · rintro ⟨k, hsemi, hnohash, hwhite⟩
    have hk : k < line.length := getElem?_some_lt hsemi
    refine ⟨k, hk, ⟨?_, hsemi⟩, ?_⟩
    · rw [List.all_eq_true]
      intro x hx
      obtain ⟨t, hxt⟩ := List.mem_iff_getElem?.mp hx
      have htb : t < k := by
        have hl := getElem?_some_lt hxt
        simp only [List.length_take] at hl
        omega
      rw [List.getElem?_take_of_lt htb] at hxt
      have hne : x ≠ '#' := by
        intro hcontra
        exact hnohash t htb (hcontra ▸ hxt)
      simp [hne]
    · rcases hnext : getElem? line (k + 1) with _ | ch
      · simp
      · simpa using hwhite ch hnext

/-- C2 counterexample: on the line `# x todo` the token `todo` occurs after
the `#`, so the claim requires S005 to fire; but the regex `# *todo` demands
that only spaces stand between the `#` and `todo`, so the code emits no S005
for this line. -/
theorem c2_counterexample :
    todoAfterHashAnywhere (String.toList "# x todo\n") = true
    ∧ (checkLine emptyInfo 0 1 (String.toList "# x todo\n")).countP
        (fun d => d.code == Code.S005) = 0 := by
  decide

/-- C2 amended: for a non-blank line, S005 fires exactly when some `#` on the
line is followed by zero or more spaces and then directly by the token `todo`,
case-insensitively — not when `todo` merely occurs somewhere after a `#`. -/
theorem c2_amended_s005 (info : LineInfo) (c i : Nat) (line : Line) :
    (Diagnostic.mk i Code.S005 none ∈ checkLine info c i line) ↔
      ∃ k m, getElem? line k = some '#' ∧
        (∀ t, t < m → getElem? line (k + 1 + t) = some ' ') ∧
        TodoAt line (k + 1 + m) := by
  rw [s005_mem_checkLine]
  simp only [eq_self_iff_true, true_and]
  exact s005_iff line

/-- C9: S003 fires exactly when some position of the line holds a semicolon
that no `#` precedes (the semicolon is outside the line's comment) and whose
successor position is absent or whitespace; in particular `x = 5;` receives
S003 while the semicolon inside the comment of `x = 5  # trailing ; in
comment` does not fire it. -/
theorem c9_s003_semicolon :
    (∀ (info : LineInfo) (c i : Nat) (line : Line),
      (Diagnostic.mk i Code.S003 none ∈ checkLine info c i line) ↔
        ∃ k, getElem? line k = some ';' ∧
          (∀ t, t < k → getElem? line t ≠ some '#') ∧
          (∀ ch, getElem? line (k + 1) = some ch → isPyWhite ch = true))
    ∧ (Diagnostic.mk 1 Code.S003 none ∈ checkLine emptyInfo 0 1 (String.toList "x = 5;\n"))
    ∧ (Diagnostic.mk 1 Code.S003 none ∉
        checkLine emptyInfo 0 1 (String.toList "x = 5  # trailing ; in comment\n")) := by
  refine ⟨?_, by decide, by decide⟩
  intro info c i line
  rw [s003_mem_checkLine]
  simp only [eq_self_iff_true, true_and]
  exact s003_iff line

/-- C2 amended witness: on `#  TODO later` the `#` at position 0 is followed
by two spaces and then `TODO`, so S005 fires. -/
theorem c2_amended_s005_witness :
    Diagnostic.mk 1 Code.S005 none ∈
      checkLine emptyInfo 0 1 (String.toList "#  TODO later\n") :=
  (c2_amended_s005 emptyInfo 0 1 (String.toList "#  TODO later\n")).mpr
    ⟨0, 2, by decide, by decide,
      ⟨'T', 'O', 'D', 'O', by decide, by decide, by decide, by decide,
        by decide, by decide, by decide, by decide⟩⟩

/-- C7 witness: the ordering instantiated on a concrete one-line file. -/
theorem c7_diag_order_witness :
    (analyze_file (fun _ => emptyInfo) [String.toList "x = 5;\n"]).Pairwise diagOrder :=
  c7_diag_order (fun _ => emptyInfo) [String.toList "x = 5;\n"]

/-- C9 witness: the S003 characterization instantiated on `a = 1;`. -/
theorem c9_s003_semicolon_witness :
    (Diagnostic.mk 1 Code.S003 none ∈ checkLine emptyInfo 0 1 (String.toList "a = 1;\n")) ↔
      ∃ k, getElem? (String.toList "a = 1;\n") k = some ';' ∧
        (∀ t, t < k → getElem? (String.toList "a = 1;\n") t ≠ some '#') ∧
        (∀ ch, getElem? (String.toList "a = 1;\n") (k + 1) = some ch →
          isPyWhite ch = true) :=
  c9_s003_semicolon.1 emptyInfo 0 1 (String.toList "a = 1;\n")
